import Mathlib

/-!
Verification of the gosoap SOAP client: the envelope codec (encode/decode of
Envelope/Header/Body/Fault documents) and the client `Do` orchestration.

The client orchestration (`Do` in client.go) is embedded directly from the
source.  The envelope codec itself is not part of the available sources (only
its test vectors are), so its definitions are modelled from the specification
(sections 4.1, 4.2 and 7) and checked against the repository's own test
vectors, which appear below as concrete inputs and expected outputs.
-/

set_option maxRecDepth 20000

namespace Gosoap

/-- Qualified XML name (`xml.Name` of the external XML engine): a namespace
URI `Space` and a local name `Local`. -/
structure XName where
  Space : String
  Local : String
deriving DecidableEq, Repr

/-- A resolved XML attribute: qualified name and text value. -/
structure XAttr where
  name : XName
  value : String
deriving DecidableEq, Repr

/-- Parsed XML node: an element with resolved name, attributes and children in
document order, or character data (whitespace preserved verbatim). -/
inductive XNode where
  | elem (name : XName) (attrs : List XAttr) (children : List XNode)
  | text (s : String)

/-- The fixed SOAP envelope namespace URI (constant `soapEnvNS`). -/
def soapEnvNS : String := "http://schemas.xmlsoap.org/soap/envelope/"

/-- Qualified name of the envelope root element. -/
def envelopeName : XName := ⟨soapEnvNS, "Envelope"⟩

/-- Qualified name of the body element. -/
def bodyName : XName := ⟨soapEnvNS, "Body"⟩

/-- Qualified name of the header element. -/
def headerName : XName := ⟨soapEnvNS, "Header"⟩

/-- Reserved qualified name of the SOAP fault element. -/
def faultName : XName := ⟨soapEnvNS, "Fault"⟩

/-! ## Tokenizer

Modelled from the spec: the external XML engine is an out-of-scope
collaborator, but the spec pins down its contract (section 6): namespace
qualified names, attribute/element/character-data distinction, and a
syntax-error type carrying a message and the offending line number.  The
tokenizer below implements that contract; its error messages and line
accounting are fixed by the repository's decode test vectors. -/

/-- Raw (prefix, local) name exactly as written in the document. -/
structure RawName where
  pfx : String
  loc : String
deriving DecidableEq, Repr

/-- Raw name rendered back to its source spelling. -/
def RawName.str (n : RawName) : String :=
  if n.pfx = "" then n.loc else n.pfx ++ ":" ++ n.loc

/-- The engine's syntax error: message and line number (`xml.SyntaxError`). -/
structure SynErr where
  Msg : String
  Line : Nat
deriving DecidableEq, Repr

/-- One open element on the scanner stack: its raw name, its resolved name
and the namespace bindings in scope inside it. -/
structure Frame where
  raw : RawName
  resolved : XName
  env : List (String × String)
deriving DecidableEq, Repr

/-- Scanner state: remaining input, current line (1-based), open elements. -/
structure Scanner where
  input : List Char
  line : Nat
  stack : List Frame
deriving DecidableEq, Repr

/-- Namespace bindings currently in scope. -/
def Scanner.curEnv (st : Scanner) : List (String × String) :=
  match st.stack with
  | [] => []
  | f :: _ => f.env

def isNameStart (c : Char) : Bool := c.isAlpha || c == '_'

def isNameChar (c : Char) : Bool := c.isAlphanum || c == '_' || c == '-' || c == '.'

def isSpaceChar (c : Char) : Bool := c == ' ' || c == '\t' || c == '\n' || c == '\r'

/-- Greedy run of name characters. -/
def takeNameChars : List Char → List Char × List Char
  | [] => ([], [])
  | c :: cs =>
    if isNameChar c then
      let (a, b) := takeNameChars cs
      (c :: a, b)
    else ([], c :: cs)

/-- Read a raw qualified name, `pfx:loc` or plain `loc`. -/
def readRawName (cs : List Char) : Option (RawName × List Char) :=
  match cs with
  | [] => none
  | c :: _ =>
    if isNameStart c then
      let (n1, rest) := takeNameChars cs
      match rest with
      | ':' :: rest2 =>
        let (n2, rest3) := takeNameChars rest2
        some (⟨String.mk n1, String.mk n2⟩, rest3)
      | _ => some (⟨"", String.mk n1⟩, rest)
    else none

/-- Skip whitespace, counting newlines into the line number. -/
def skipWs : List Char → Nat → List Char × Nat
  | [], l => ([], l)
  | c :: cs, l =>
    if c == '\n' then skipWs cs (l + 1)
    else if isSpaceChar c then skipWs cs l
    else (c :: cs, l)

/-- Skip a processing instruction after `<?` up to the closing `?>`. -/
def skipProcInst : List Char → Nat → Option (List Char × Nat)
  | [], _ => none
  | '?' :: '>' :: cs, l => some (cs, l)
  | c :: cs, l => skipProcInst cs (if c == '\n' then l + 1 else l)

/-- Character data up to the next `<` (or end of input), counting newlines. -/
def takeText : List Char → Nat → List Char × List Char × Nat
  | [], l => ([], [], l)
  | '<' :: cs, l => ([], '<' :: cs, l)
  | c :: cs, l =>
    let (t, r, l') := takeText cs (if c == '\n' then l + 1 else l)
    (c :: t, r, l')

/-- Attribute value up to the closing quote `q`, counting newlines. -/
def takeAttrVal (q : Char) : List Char → Nat → Option (List Char × List Char × Nat)
  | [], _ => none
  | c :: cs, l =>
    if c == q then some ([], cs, l)
    else
      match takeAttrVal q cs (if c == '\n' then l + 1 else l) with
      | some (v, r, l') => some (c :: v, r, l')
      | none => none

/-- The single-quote character (written by code to avoid escapes). -/
def squote : Char := Char.ofNat 39

/-- Attribute list of a start tag.  Returns the raw attributes in document
order, whether the tag was self-closing, and the rest of the input.  A
character that is neither a terminator nor a name where an attribute name is
expected yields the engine's "expected attribute name in element" error at
the current line. -/
def readAttrs (fuel : Nat) (cs : List Char) (l : Nat)
    (acc : List (RawName × String)) :
    Except SynErr (List (RawName × String) × Bool × List Char × Nat) :=
  match fuel with
  | 0 => .error ⟨"internal: attribute scan fuel exhausted", l⟩
  | fuel + 1 =>
    let (cs1, l1) := skipWs cs l
    match cs1 with
    | [] => .error ⟨"unexpected EOF", l1⟩
    | '>' :: rest => .ok (acc.reverse, false, rest, l1)
    | '/' :: rest =>
      match rest with
      | '>' :: rest2 => .ok (acc.reverse, true, rest2, l1)
      | _ => .error ⟨"expected /> in element", l1⟩
    | c :: _ =>
      if isNameStart c then
        match readRawName cs1 with
        | none => .error ⟨"expected attribute name in element", l1⟩
        | some (an, r1) =>
          let (r2, l2) := skipWs r1 l1
          match r2 with
          | '=' :: r3 =>
            let (r4, l3) := skipWs r3 l2
            match r4 with
            | q :: r5 =>
              if q == '"' || q == squote then
                match takeAttrVal q r5 l3 with
                | none => .error ⟨"unexpected EOF", l3⟩
                | some (v, r6, l4) => readAttrs fuel r6 l4 ((an, String.mk v) :: acc)
              else .error ⟨"expected quoted string", l3⟩
            | [] => .error ⟨"unexpected EOF", l3⟩
          | _ => .error ⟨"expected = after attribute name", l2⟩
      else .error ⟨"expected attribute name in element", l1⟩

/-- Namespace declarations contributed by a start tag's attributes: a plain
`xmlns` binds the default namespace (key `""`), `xmlns:p` binds prefix `p`. -/
def nsDecls (attrs : List (RawName × String)) : List (String × String) :=
  attrs.foldr
    (fun (a : RawName × String) acc =>
      if a.1.pfx = "" && a.1.loc = "xmlns" then ("", a.2) :: acc
      else if a.1.pfx = "xmlns" then (a.1.loc, a.2) :: acc
      else acc) []

/-- Resolve a raw name against the bindings in scope.  Unprefixed attribute
names stay in no namespace; unprefixed element names take the default
namespace when one is bound; an unbound prefix is kept as the space. -/
def resolveName (env : List (String × String)) (isAttr : Bool) (n : RawName) : XName :=
  if n.pfx = "" then
    if isAttr then ⟨"", n.loc⟩
    else
      match env.lookup "" with
      | some u => ⟨u, n.loc⟩
      | none => ⟨"", n.loc⟩
  else
    match env.lookup n.pfx with
    | some u => ⟨u, n.loc⟩
    | none => ⟨n.pfx, n.loc⟩

/-- Non-namespace-declaration attributes, with resolved names. -/
def realAttrs (env : List (String × String)) (attrs : List (RawName × String)) :
    List XAttr :=
  attrs.filterMap
    (fun (a : RawName × String) =>
      if (a.1.pfx = "" && a.1.loc = "xmlns") || a.1.pfx = "xmlns" then none
      else some ⟨resolveName env true a.1, a.2⟩)

/-- One lexical token. -/
inductive Tok where
  | procInst
  | startTag (name : XName) (raw : RawName) (attrs : List XAttr) (selfClose : Bool)
  | endTag (name : XName) (raw : RawName)
  | charData (s : String)
deriving DecidableEq, Repr

/-- Scan one token.  `none` is end of input.  Mismatched closing tags, bad
attribute separators and malformed end tags produce the engine's syntax
errors, with the line number current at the point of failure. -/
def nextTok (st : Scanner) : Except SynErr (Option (Tok × Scanner)) :=
  match st.input with
  | [] => .ok none
  | '<' :: rest =>
    match rest with
    | '?' :: r1 =>
      match skipProcInst r1 st.line with
      | none => .error ⟨"unexpected EOF", st.line⟩
      | some (r2, l2) => .ok (some (.procInst, { st with input := r2, line := l2 }))
    | '!' :: _ => .error ⟨"unsupported markup", st.line⟩
    | '/' :: r1 =>
      match readRawName r1 with
      | none => .error ⟨"expected element name after </", st.line⟩
      | some (rn, r2) =>
        let (r3, l3) := skipWs r2 st.line
        match r3 with
        | '>' :: r4 =>
          match st.stack with
          | [] => .error ⟨"unexpected end element </" ++ rn.loc ++ ">", l3⟩
          | f :: stk =>
            if f.raw.loc ≠ rn.loc then
              .error ⟨"element <" ++ f.raw.loc ++ "> closed by </" ++ rn.loc ++ ">", l3⟩
            else
              let resolvedEnd := resolveName st.curEnv false rn
              if f.resolved.Space ≠ resolvedEnd.Space then
                .error ⟨"element <" ++ f.raw.loc ++ "> in space " ++ f.resolved.Space ++
                  " closed by </" ++ rn.loc ++ "> in space " ++ resolvedEnd.Space, l3⟩
              else
                .ok (some (.endTag f.resolved rn, ⟨r4, l3, stk⟩))
        | _ => .error ⟨"invalid characters between </" ++ rn.str ++ " and >", l3⟩
    | _ =>
      match readRawName rest with
      | none => .error ⟨"expected element name after <", st.line⟩
      | some (rn, r2) =>
        match readAttrs (r2.length + 1) r2 st.line [] with
        | .error e => .error e
        | .ok (attrs, sc, r3, l3) =>
          let env2 := nsDecls attrs ++ st.curEnv
          let nm := resolveName env2 false rn
          let xattrs := realAttrs env2 attrs
          if sc then
            .ok (some (.startTag nm rn xattrs true, ⟨r3, l3, st.stack⟩))
          else
            .ok (some (.startTag nm rn xattrs false, ⟨r3, l3, ⟨rn, nm, env2⟩ :: st.stack⟩))
  | cs =>
    let (t, r, l') := takeText cs st.line
    .ok (some (.charData (String.mk t), { st with input := r, line := l' }))

/-! ## Streaming envelope decode

Modelled from the spec, section 4.2: parse the `Envelope`/`Header`/`Body`
shell, check the content-binding precondition at the Body's first element
child, then discriminate by that child's qualified name — Fault decode with
verbatim `detail` capture, or content decode against the caller's binding.
Every engine syntax error is surfaced unmodified. -/

/-- Decode-level error taxonomy (section 7). -/
inductive DecErr where
  /-- An engine syntax error, surfaced unmodified. -/
  | syn (e : SynErr)
  /-- `ErrEnvelopeMisconfigured`: no success-content target was ever bound. -/
  | envelopeMisconfigured
  /-- An engine unmarshal error (element type mismatch and the like). -/
  | unmarshal (msg : String)
  /-- A reader failure surfaced through the streaming decoder. -/
  | ioRead (msg : String)
deriving DecidableEq, Repr

/-- The fault model (section 3): `faultcode`, `faultstring`, `faultactor` as
plain text, and the `detail` inner markup captured verbatim.  `Fstring`
models the Go field `String`; `DetailInternal` models the internal detail
field holding the raw fragment (`nil` when the document had no `detail`). -/
structure Fault where
  Code : String
  Fstring : String
  Actor : String
  DetailInternal : Option String
deriving DecidableEq, Repr

/-- The zero fault value, as allocated by the codec before decoding. -/
def Fault.empty : Fault := ⟨"", "", "", none⟩

/-- Decoded envelope: at most one of content and fault is populated. -/
structure DecodedEnv where
  Content : Option XNode
  Fault : Option Fault

/-- Next start/end tag, skipping processing instructions and character
data. -/
def nextElemTok (fuel : Nat) (st : Scanner) : Except SynErr (Option (Tok × Scanner)) :=
  match fuel with
  | 0 => .error ⟨"internal: token scan fuel exhausted", st.line⟩
  | fuel + 1 =>
    match nextTok st with
    | .error e => .error e
    | .ok none => .ok none
    | .ok (some (.procInst, st')) => nextElemTok fuel st'
    | .ok (some (.charData _, st')) => nextElemTok fuel st'
    | .ok (some (t, st')) => .ok (some (t, st'))

/-- Consume the rest of an already-opened element (depth `0` means the next
unmatched end tag closes it). -/
def skipSubtree (fuel : Nat) (st : Scanner) (depth : Nat) : Except SynErr Scanner :=
  match fuel with
  | 0 => .error ⟨"internal: skip fuel exhausted", st.line⟩
  | fuel + 1 =>
    match nextTok st with
    | .error e => .error e
    | .ok none => .error ⟨"unexpected EOF", st.line⟩
    | .ok (some (.startTag _ _ _ false, st')) => skipSubtree fuel st' (depth + 1)
    | .ok (some (.endTag _ _, st')) =>
      match depth with
      | 0 => .ok st'
      | d + 1 => skipSubtree fuel st' d
    | .ok (some (_, st')) => skipSubtree fuel st' depth

/-- Children of an already-opened element, as parsed nodes in document order
(character data, including pure whitespace, is preserved). -/
def parseNodes (fuel : Nat) (st : Scanner) (acc : List XNode) :
    Except SynErr (List XNode × Scanner) :=
  match fuel with
  | 0 => .error ⟨"internal: parse fuel exhausted", st.line⟩
  | fuel + 1 =>
    match nextTok st with
    | .error e => .error e
    | .ok none => .error ⟨"unexpected EOF", st.line⟩
    | .ok (some (.procInst, st')) => parseNodes fuel st' acc
    | .ok (some (.charData s, st')) => parseNodes fuel st' (.text s :: acc)
    | .ok (some (.startTag n _ as true, st')) => parseNodes fuel st' (.elem n as [] :: acc)
    | .ok (some (.startTag n _ as false, st')) =>
      match parseNodes fuel st' [] with
      | .error e => .error e
      | .ok (children, st2) => parseNodes fuel st2 (.elem n as children :: acc)
    | .ok (some (.endTag _ _, st')) => .ok (acc.reverse, st')

/-- Verbatim capture of an already-opened element's inner markup (the
`,innerxml` behaviour used for `detail`): the raw characters from just after
the start tag up to, and excluding, its matching end tag.  `orig` is the
input right after the start tag; the capture is a literal prefix of it. -/
def captureRawAux (orig : List Char) (fuel : Nat) (st : Scanner) (depth : Nat) :
    Except SynErr (String × Scanner) :=
  match fuel with
  | 0 => .error ⟨"internal: capture fuel exhausted", st.line⟩
  | fuel + 1 =>
    match nextTok st with
    | .error e => .error e
    | .ok none => .error ⟨"unexpected EOF", st.line⟩
    | .ok (some (.startTag _ _ _ false, st')) => captureRawAux orig fuel st' (depth + 1)
    | .ok (some (.endTag _ _, st')) =>
      match depth with
      | 0 => .ok (String.mk (orig.take (orig.length - st.input.length)), st')
      | d + 1 => captureRawAux orig fuel st' d
    | .ok (some (_, st')) => captureRawAux orig fuel st' depth

/-- Concatenated character data of an already-opened element, up to its end
tag; child elements are skipped. -/
def readTextUntilEnd (fuel : Nat) (st : Scanner) (acc : String) :
    Except SynErr (String × Scanner) :=
  match fuel with
  | 0 => .error ⟨"internal: text fuel exhausted", st.line⟩
  | fuel + 1 =>
    match nextTok st with
    | .error e => .error e
    | .ok none => .error ⟨"unexpected EOF", st.line⟩
    | .ok (some (.charData s, st')) => readTextUntilEnd fuel st' (acc ++ s)
    | .ok (some (.endTag _ _, st')) => .ok (acc, st')
    | .ok (some (.startTag _ _ _ false, st')) =>
      match skipSubtree fuel st' 0 with
      | .error e => .error e
      | .ok st2 => readTextUntilEnd fuel st2 acc
    | .ok (some (_, st')) => readTextUntilEnd fuel st' acc

/-- Fault decode (section 4.2 step 3, fault branch), entered just after the
opening `Fault` tag: `faultcode`, `faultstring`, `faultactor` decode as plain
text children; `detail` is captured verbatim, never decoded structurally;
unknown children are skipped. -/
def parseFault (fuel : Nat) (st : Scanner) (f : Fault) :
    Except SynErr (Fault × Scanner) :=
  match fuel with
  | 0 => .error ⟨"internal: fault fuel exhausted", st.line⟩
  | fuel + 1 =>
    match nextElemTok fuel st with
    | .error e => .error e
    | .ok none => .error ⟨"unexpected EOF", st.line⟩
    | .ok (some (.endTag _ _, st')) => .ok (f, st')
    | .ok (some (.startTag n _ _ sc, st')) =>
      if n.Local = "faultcode" then
        if sc then parseFault fuel st' { f with Code := "" }
        else
          match readTextUntilEnd fuel st' "" with
          | .error e => .error e
          | .ok (s, st2) => parseFault fuel st2 { f with Code := s }
      else if n.Local = "faultstring" then
        if sc then parseFault fuel st' { f with Fstring := "" }
        else
          match readTextUntilEnd fuel st' "" with
          | .error e => .error e
          | .ok (s, st2) => parseFault fuel st2 { f with Fstring := s }
      else if n.Local = "faultactor" then
        if sc then parseFault fuel st' { f with Actor := "" }
        else
          match readTextUntilEnd fuel st' "" with
          | .error e => .error e
          | .ok (s, st2) => parseFault fuel st2 { f with Actor := s }
      else if n.Local = "detail" then
        if sc then parseFault fuel st' { f with DetailInternal := some "" }
        else
          match captureRawAux st'.input fuel st' 0 with
          | .error e => .error e
          | .ok (raw, st2) => parseFault fuel st2 { f with DetailInternal := some raw }
      else
        if sc then parseFault fuel st' f
        else
          match skipSubtree fuel st' 0 with
          | .error e => .error e
          | .ok st2 => parseFault fuel st2 f
    | .ok (some (_, st')) => parseFault fuel st' f

/-- Find the `Body` start tag among the envelope's children, skipping
`Header` (and any other) subtrees.  `none` means the body was empty or
absent. -/
def findBody (fuel : Nat) (st : Scanner) : Except DecErr (Option Scanner) :=
  match fuel with
  | 0 => .error (.syn ⟨"internal: find body fuel exhausted", st.line⟩)
  | fuel + 1 =>
    match nextElemTok fuel st with
    | .error e => .error (.syn e)
    | .ok none => .error (.syn ⟨"unexpected EOF", st.line⟩)
    | .ok (some (.startTag n _ _ sc, st')) =>
      if n = bodyName then
        if sc then .ok none else .ok (some st')
      else if sc then findBody fuel st'
      else
        match skipSubtree fuel st' 0 with
        | .error e => .error (.syn e)
        | .ok st2 => findBody fuel st2
    | .ok (some (.endTag _ _, _)) => .ok none
    | .ok (some (_, st')) => findBody fuel st'

/-- Scan the document shell up to and including the start tag of the Body's
first element child (section 4.2 step 1).  Returns that child's resolved
name, attributes, self-closing flag, and the scanner state just after its
start tag; `none` when the body has no element child. -/
def scanToBodyChild (s : String) :
    Except DecErr (Option (XName × List XAttr × Bool × Scanner)) :=
  let cs := s.data
  let fuel := cs.length + 1
  let st0 : Scanner := ⟨cs, 1, []⟩
  match nextElemTok fuel st0 with
  | .error e => .error (.syn e)
  | .ok none => .error (.syn ⟨"unexpected EOF", 1⟩)
  | .ok (some (.startTag n _ _ sc, st1)) =>
    if n ≠ envelopeName then
      .error (.unmarshal ("expected element type <Envelope> but have <" ++ n.Local ++ ">"))
    else if sc then .ok none
    else
      match findBody fuel st1 with
      | .error e => .error e
      | .ok none => .ok none
      | .ok (some st2) =>
        match nextElemTok fuel st2 with
        | .error e => .error (.syn e)
        | .ok none => .error (.syn ⟨"unexpected EOF", st2.line⟩)
        | .ok (some (.startTag cn _ cattrs csc, st3)) => .ok (some (cn, cattrs, csc, st3))
        | .ok (some (.endTag _ _, _)) => .ok none
        | .ok (some (_, _)) => .error (.unmarshal "unexpected token in Body")
  | .ok (some (.endTag _ _, st1)) =>
    .error (.syn ⟨"unexpected end element", st1.line⟩)
  | .ok (some (_, _)) => .error (.unmarshal "unexpected token")

/-- Consume end tags (and skip stray subtrees) until the envelope's root
element is closed, surfacing any engine error. -/
def closeOut (fuel : Nat) (st : Scanner) : Except SynErr Scanner :=
  match fuel with
  | 0 => .error ⟨"internal: close fuel exhausted", st.line⟩
  | fuel + 1 =>
    match st.stack with
    | [] => .ok st
    | _ :: _ =>
      match nextTok st with
      | .error e => .error e
      | .ok none => .error ⟨"unexpected EOF", st.line⟩
      | .ok (some (.startTag _ _ _ false, st')) =>
        match skipSubtree fuel st' 0 with
        | .error e => .error e
        | .ok st2 => closeOut fuel st2
      | .ok (some (_, st')) => closeOut fuel st'

/-- Envelope decode (section 4.2).  `binding` is the canonical qualified name
of the caller-bound success-content target; `none` models a construction-time
binding that was nil.  The misconfiguration check happens at the Body's first
element child, before its subtree is parsed, and only when that child is not
the reserved Fault name. -/
def envelopeDecode (binding : Option XName) (s : String) : Except DecErr DecodedEnv :=
  match scanToBodyChild s with
  | .error e => .error e
  | .ok none => .ok ⟨none, none⟩
  | .ok (some (cn, cattrs, csc, st)) =>
    let fuel := s.data.length + 1
    if cn = faultName then
      if csc then .ok ⟨none, some Fault.empty⟩
      else
        match parseFault fuel st Fault.empty with
        | .error e => .error (.syn e)
        | .ok (f, st2) =>
          match closeOut fuel st2 with
          | .error e => .error (.syn e)
          | .ok _ => .ok ⟨none, some f⟩
    else
      match binding with
      | none => .error .envelopeMisconfigured
      | some canon =>
        if cn ≠ canon then
          .error (.unmarshal
            ("expected element type <" ++ canon.Local ++ "> but have <" ++ cn.Local ++ ">"))
        else if csc then
          match closeOut fuel st with
          | .error e => .error (.syn e)
          | .ok _ => .ok ⟨some (.elem cn cattrs []), none⟩
        else
          match parseNodes fuel st [] with
          | .error e => .error (.syn e)
          | .ok (children, st2) =>
            match closeOut fuel st2 with
            | .error e => .error (.syn e)
            | .ok _ => .ok ⟨some (.elem cn cattrs children), none⟩

/-! ## Envelope encode

Modelled from the spec, section 4.1: wrap the content under `Body` under
`Envelope`, with `Header` present only when at least one header builder
contributed elements.  The fixed envelope prefix is bound once at the root;
a child element's namespace is declared where first used; an element whose
name carries no namespace inherits the enclosing prefix. -/

/-- Prefix chosen for a namespace: the fixed envelope prefix for the envelope
namespace, otherwise the engine's choice (the namespace string itself). -/
def pfxFor (space : String) : String :=
  if space = soapEnvNS then "soapenv" else space

/-- Serialized attribute list (attributes are unqualified on the wire). -/
def serializeAttrs (attrs : List XAttr) : String :=
  attrs.foldl (fun acc a => acc ++ " " ++ a.name.Local ++ "=\"" ++ a.value ++ "\"") ""

mutual

/-- Serialize one node.  `scope` maps namespaces already declared in an
enclosing element to their prefixes; `ipfx` is the enclosing prefix,
inherited by elements whose name has no namespace. -/
def serializeNode (scope : List (String × String)) (ipfx : String) : XNode → String
  | .text s => s
  | .elem n attrs children =>
    if n.Space = "" then
      let tag := if ipfx = "" then n.Local else ipfx ++ ":" ++ n.Local
      "<" ++ tag ++ serializeAttrs attrs ++ ">" ++
        serializeNodes scope ipfx children ++ "</" ++ tag ++ ">"
    else
      match scope.lookup n.Space with
      | some q =>
        let tag := if q = "" then n.Local else q ++ ":" ++ n.Local
        "<" ++ tag ++ serializeAttrs attrs ++ ">" ++
          serializeNodes scope q children ++ "</" ++ tag ++ ">"
      | none =>
        let q := pfxFor n.Space
        let tag := if q = "" then n.Local else q ++ ":" ++ n.Local
        "<" ++ tag ++ " xmlns:" ++ q ++ "=\"" ++ n.Space ++ "\"" ++
          serializeAttrs attrs ++ ">" ++
          serializeNodes ((n.Space, q) :: scope) q children ++ "</" ++ tag ++ ">"

/-- Serialize a node list in document order. -/
def serializeNodes (scope : List (String × String)) (ipfx : String) :
    List XNode → String
  | [] => ""
  | c :: cs => serializeNode scope ipfx c ++ serializeNodes scope ipfx cs

end

/-- The canonical-name assignment the encode wrapper performs (section 4.1 /
section 8): a content value whose tag name was left unset by the caller gets
the canonical name of the construction-time binding; a name with only the
namespace unset inherits the canonical namespace; a fully set name is kept.
The original value is not mutated — a fresh node is produced. -/
def canonName (canon : XName) (n : XName) : XName :=
  if n.Local = "" then canon
  else if n.Space = "" then ⟨canon.Space, n.Local⟩
  else n

/-- The content node as encoded: its top-level tag name canonicalized. -/
def encodeContentNode (canon : XName) : XNode → XNode
  | .text s => .text s
  | .elem n attrs children => .elem (canonName canon n) attrs children

/-- String-level envelope encode (section 4.1): fixed envelope/body wrapper
pair bound to the SOAP envelope namespace, optional header block, and the
canonicalized content. -/
def envelopeEncode (canon : XName) (content : XNode) (headers : List XNode) : String :=
  "<soapenv:Envelope xmlns:soapenv=\"" ++ soapEnvNS ++ "\">" ++
    (if headers.isEmpty then ""
     else "<soapenv:Header>" ++
       serializeNodes [(soapEnvNS, "soapenv")] "soapenv" headers ++ "</soapenv:Header>") ++
    "<soapenv:Body>" ++
    serializeNode [(soapEnvNS, "soapenv")] "soapenv" (encodeContentNode canon content) ++
    "</soapenv:Body></soapenv:Envelope>"

/-! ## Tree-level view

The external engine's marshal/unmarshal contract is out of scope (section 1);
its abstraction is the resolved document tree.  The functions below give the
envelope codec's behaviour on that tree: what encode contributes to the
document and how decode discriminates the Body's first child. -/

mutual

/-- The resolved view of a caller tree, as the marshal/unmarshal round trip
of the engine yields it: an element name with no namespace inherits the
enclosing namespace. -/
def resolveTree (ispace : String) : XNode → XNode
  | .text s => .text s
  | .elem n attrs children =>
    let sp := if n.Space = "" then ispace else n.Space
    .elem ⟨sp, n.Local⟩ attrs (resolveTrees sp children)

/-- `resolveTree` on a node list. -/
def resolveTrees (ispace : String) : List XNode → List XNode
  | [] => []
  | c :: cs => resolveTree ispace c :: resolveTrees ispace cs

end

/-- The document tree produced by envelope encode (section 4.1), in resolved
view: `Envelope` containing an optional `Header` (absent if empty) and the
`Body` holding exactly the canonicalized content element. -/
def encodeEnvTree (canon : XName) (content : XNode) (headers : List XNode) : XNode :=
  .elem envelopeName []
    ((if headers.isEmpty then []
      else [.elem headerName [] (resolveTrees soapEnvNS headers)]) ++
     [.elem bodyName [] [resolveTree "" (encodeContentNode canon content)]])

/-- Is this node an element? -/
def XNode.isElem : XNode → Bool
  | .elem _ _ _ => true
  | .text _ => false

/-- Is this node an element with the given local name? -/
def isElemLocal (loc : String) : XNode → Bool
  | .elem n _ _ => n.Local == loc
  | .text _ => false

/-- First element child of a node list (character data is not an element). -/
def firstElemChild (children : List XNode) : Option XNode :=
  children.find? XNode.isElem

/-- Concatenated character data among a node list. -/
def textContent (children : List XNode) : String :=
  children.foldl
    (fun acc n =>
      match n with
      | .text s => acc ++ s
      | .elem _ _ _ => acc) ""

/-- Tree-level fault decode, mirroring the streaming fault branch: walk the
fault's children in order; text children named `faultcode`, `faultstring`,
`faultactor` set the corresponding fields (a later duplicate wins, as in the
stream); `detail` stores its inner markup as an opaque fragment; anything
else is skipped. -/
def faultFromNodes : List XNode → Fault → Fault
  | [], f => f
  | .text _ :: rest, f => faultFromNodes rest f
  | .elem n _ cs :: rest, f =>
    if n.Local = "faultcode" then faultFromNodes rest { f with Code := textContent cs }
    else if n.Local = "faultstring" then
      faultFromNodes rest { f with Fstring := textContent cs }
    else if n.Local = "faultactor" then
      faultFromNodes rest { f with Actor := textContent cs }
    else if n.Local = "detail" then
      faultFromNodes rest { f with DetailInternal := some (serializeNodes [] "" cs) }
    else faultFromNodes rest f

/-- Is this node the `Body` element of the envelope namespace? -/
def isBodyElem : XNode → Bool
  | .elem n _ _ => n == bodyName
  | .text _ => false

/-- Tree-level envelope decode (section 4.2 on the resolved document tree):
locate the Body, discriminate its first element child purely by qualified
name — the reserved Fault name decodes the fault, anything else requires the
caller's content binding and must match it. -/
def decodeEnvTree (binding : Option XName) (doc : XNode) : Except DecErr DecodedEnv :=
  match doc with
  | .text _ => .error (.unmarshal "expected element")
  | .elem n _ children =>
    if n ≠ envelopeName then
      .error (.unmarshal ("expected element type <Envelope> but have <" ++ n.Local ++ ">"))
    else
      match children.find? isBodyElem with
      | none => .ok ⟨none, none⟩
      | some (.text _) => .ok ⟨none, none⟩
      | some (.elem _ _ bodyChildren) =>
        match firstElemChild bodyChildren with
        | none => .ok ⟨none, none⟩
        | some (.text _) => .ok ⟨none, none⟩
        | some (.elem cn cattrs ccs) =>
          if cn = faultName then .ok ⟨none, some (faultFromNodes ccs Fault.empty)⟩
          else
            match binding with
            | none => .error .envelopeMisconfigured
            | some canon =>
              if cn ≠ canon then
                .error (.unmarshal ("expected element type <" ++ canon.Local ++
                  "> but have <" ++ cn.Local ++ ">"))
              else .ok ⟨some (.elem cn cattrs ccs), none⟩

/-! ## Client orchestration (`Do`, client.go lines 86–109)

The HTTP transport and the request-building steps that precede the response
handling are collaborator calls whose failures return verbatim; the embedded
state machine below is the response branch of `Do`: the 500-status body
caching, the decode, the cached-raw-body fallback and the fault-to-error
conversion. -/

/-- `HTTPError`: fault-class status plus the complete raw response body. -/
structure HTTPError where
  StatusCode : Nat
  ResponseBody : String
deriving DecidableEq, Repr

/-- Outcome of `Do`'s response branch. -/
inductive DoOutcome where
  /-- nil error: the caller's response value was populated in place. -/
  | ok
  /-- The domain error produced from a decoded Fault (FaultError contract). -/
  | faultError (f : Fault)
  /-- The `HTTPError` carrying status code and cached raw body. -/
  | httpError (e : HTTPError)
  /-- A body-read error returned verbatim (the `io.ReadAll` failure path). -/
  | readError (msg : String)
  /-- A decode error returned unmodified (non-fault-class status). -/
  | decodeError (e : DecErr)
deriving DecidableEq, Repr

/-- Modelled from the spec: `SOAPBodyResponse.ErrorFromFault` (called at
client.go line 109, not among the available sources): a populated Fault is
converted into the domain error of the FaultError contract, carrying the
fault (with its raw detail fragment for redecoding into the caller's
fault-detail target); an unpopulated Fault yields nil. -/
def ErrorFromFault (env : DecodedEnv) : DoOutcome :=
  match env.Fault with
  | some f => .faultError f
  | none => .ok

/-- The response branch of `Client.Do` (client.go lines 86–109).  `stream`
is what reading the response body yields (`.error` models an `io.ReadAll`
failure); `decode` is the envelope decode applied to the delivered bytes.
On status 500 the body is read in full first and decode runs on the cached
bytes; a decode failure there returns the `HTTPError` with those bytes.  On
any other status decode runs against the live stream and its failure is
returned unmodified. -/
def clientDo (status : Nat) (stream : Except String String)
    (decode : String → Except DecErr DecodedEnv) : DoOutcome :=
  if status = 500 then
    match stream with
    | .error e => .readError e
    | .ok cached =>
      match decode cached with
      | .error _ => .httpError ⟨status, cached⟩
      | .ok env => ErrorFromFault env
  else
    match stream with
    | .error e => .decodeError (.ioRead e)
    | .ok body =>
      match decode body with
      | .error e => .decodeError e
      | .ok env => ErrorFromFault env

/-! ## Concrete vectors

These are the repository's own test vectors (`envelopeEncodeTests` and
`envelopeDecodeTests`), reproduced byte for byte. -/

/-- Canonical name of the decode tests' bound content target
(`envelopeContentExample`, struct tag `ns ContentExample`). -/
def contentExampleName : XName := ⟨"ns", "ContentExample"⟩

/-- Decode vector: a plain content body. -/
def decodeContentInput : String := "<?xml version=\"1.0\"?>\n\t\t\t<soap:Envelope xmlns:soap=\"http://schemas.xmlsoap.org/soap/envelope/\">\n\t\t\t\t<soap:Body>\n\t\t\t\t\t<ContentExample xmlns=\"ns\" attr1=\"10\">\n\t\t\t\t\t\t<ContentField attr1=\"test attr\" attr2=\"11\">This is a test content string</ContentField>\n\t\t\t\t\t</ContentExample>\n\t\t\t\t</soap:Body>\n\t\t\t</soap:Envelope>"

/-- Decode vector: a fault with a `detail` child. -/
def decodeFaultDetailInput : String := "<?xml version=\"1.0\"?>\n\t\t\t<soap:Envelope xmlns:soap=\"http://schemas.xmlsoap.org/soap/envelope/\">\n\t\t\t\t<soap:Body>\n\t\t\t\t\t<soap:Fault>\n\t\t\t\t\t\t<faultcode>FaultCodeValue</faultcode>\n\t\t\t\t\t\t<faultstring>FaultStringValue</faultstring>\n\t\t\t\t\t\t<faultactor>FaultActorValue</faultactor>\n\t\t\t\t\t\t<detail>\n\t\t\t\t\t\t\t<DetailExample attr1=\"10\">\n\t\t\t\t\t\t\t\t<DetailField attr1=\"test\" attr2=\"11\">This is a test string</DetailField>\n\t\t\t\t\t\t\t</DetailExample>\n\t\t\t\t\t\t</detail>\n\t\t\t\t\t</soap:Fault>\n\t\t\t\t</soap:Body>\n\t\t\t</soap:Envelope>"

/-- The verbatim inner markup of the `detail` element above, whitespace
included, exactly as the repository's expected `faultDetail.Content`. -/
def decodeFaultDetailFragment : String := "\n\t\t\t\t\t\t\t<DetailExample attr1=\"10\">\n\t\t\t\t\t\t\t\t<DetailField attr1=\"test\" attr2=\"11\">This is a test string</DetailField>\n\t\t\t\t\t\t\t</DetailExample>\n\t\t\t\t\t\t"

/-- Decode vector: a fault without a `detail` child. -/
def decodeFaultNoDetailInput : String := "<?xml version=\"1.0\"?>\n\t\t\t<soap:Envelope xmlns:soap=\"http://schemas.xmlsoap.org/soap/envelope/\">\n\t\t\t\t<soap:Body>\n\t\t\t\t\t<soap:Fault>\n\t\t\t\t\t\t<faultcode>FaultCodeValue</faultcode>\n\t\t\t\t\t\t<faultstring>FaultStringValue</faultstring>\n\t\t\t\t\t\t<faultactor>FaultActorValue</faultactor>\n\t\t\t\t\t</soap:Fault>\n\t\t\t\t</soap:Body>\n\t\t\t</soap:Envelope>"

/-- Decode vector: `<ContentExample>` closed by `</soap:Body>` on line 6. -/
def decodeMismatchedTagInput : String := "<?xml version=\"1.0\"?>\n\t\t\t<soap:Envelope xmlns:soap=\"http://schemas.xmlsoap.org/soap/envelope/\">\n\t\t\t\t<soap:Body>\n\t\t\t\t\t<ContentExample xmlns=\"ns\" attr1=\"10\">\n\t\t\t\t\t\t<ContentField attr1=\"test attr\" attr2=\"11\">This is a test content string</ContentField>\n\t\t\t\t</soap:Body>\n\t\t\t\t\t</ContentExample>\n\t\t\t</soap:Envelope>"

/-- Decode vector: a stray comma between attributes on line 5 (used both with
a bound content target and, in the misconfiguration vector, without one). -/
def decodeBadAttrInput : String := "<?xml version=\"1.0\"?>\n\t\t\t<soap:Envelope xmlns:soap=\"http://schemas.xmlsoap.org/soap/envelope/\">\n\t\t\t\t<soap:Body>\n\t\t\t\t\t<ContentExample xmlns=\"ns\" attr1=\"10\">\n\t\t\t\t\t\t<ContentField attr1=\"test attr\", attr2=\"11\">This is a test content string</ContentField>\n\t\t\t\t\t</ContentExample>\n\t\t\t\t</soap:Body>\n\t\t\t</soap:Envelope>"

/-- Decode vector: `</faultcode` never closed with `>` (error on line 6). -/
def decodeBadEndTagInput : String := "<?xml version=\"1.0\"?>\n\t\t\t<soap:Envelope xmlns:soap=\"http://schemas.xmlsoap.org/soap/envelope/\">\n\t\t\t\t<soap:Body>\n\t\t\t\t\t<soap:Fault>\n\t\t\t\t\t\t<faultcode>FaultCodeValue</faultcode\n\t\t\t\t\t\t<faultstring>FaultStringValue</faultstring>\n\t\t\t\t\t\t<faultactor>FaultActorValue</faultactor>\n\t\t\t\t\t\t<detail>\n\t\t\t\t\t\t\t<DetailExample attr1=\"10\">\n\t\t\t\t\t\t\t\t<DetailField attr1=\"test\" attr2=\"11\">This is a test string</DetailField>\n\t\t\t\t\t\t\t</DetailExample>\n\t\t\t\t\t\t</detail>\n\t\t\t\t\t</soap:Fault>\n\t\t\t\t</soap:Body>\n\t\t\t</soap:Envelope>"

/-- Encode vector: the first `envelopeEncodeTests` content value, with the
caller's tag name left unset (`XMLName` zero) on the outer element and set to
the bare local `ContentField` on the inner one. -/
def encodeContentExample : XNode :=
  .elem ⟨"", ""⟩ [⟨⟨"", "attr1"⟩, "10"⟩]
    [.elem ⟨"", "ContentField"⟩
      [⟨⟨"", "attr1"⟩, "test attr"⟩, ⟨⟨"", "attr2"⟩, "11"⟩]
      [.text "This is a test string"]]

/-- The expected encoding of `encodeContentExample` with no headers. -/
def encodeExpected : String := "<soapenv:Envelope xmlns:soapenv=\"http://schemas.xmlsoap.org/soap/envelope/\"><soapenv:Body><ns:ContentExample xmlns:ns=\"ns\" attr1=\"10\"><ns:ContentField attr1=\"test attr\" attr2=\"11\">This is a test string</ns:ContentField></ns:ContentExample></soapenv:Body></soapenv:Envelope>"

/-- The fault the repository expects from `decodeFaultDetailInput`. -/
def decodedFaultDetail : Fault :=
  ⟨"FaultCodeValue", "FaultStringValue", "FaultActorValue", some decodeFaultDetailFragment⟩

/-- The fault the repository expects from `decodeFaultNoDetailInput`. -/
def decodedFaultNoDetail : Fault :=
  ⟨"FaultCodeValue", "FaultStringValue", "FaultActorValue", none⟩

/-- A document whose shell itself is malformed: the envelope root is closed
by a wrong end tag before any Body is seen. -/
def badShellInput : String :=
  "<soap:Envelope xmlns:soap=\"http://schemas.xmlsoap.org/soap/envelope/\"></Wrong>"

/-! ## Declarative views used to state the properties -/

/-- Resolved name of the Body's first element child, when the document shell
scans that far. -/
def scannedBodyChildName (s : String) : Option XName :=
  match scanToBodyChild s with
  | .ok (some (cn, _, _, _)) => some cn
  | _ => none

/-- The `Header` child of a document tree's root, if any. -/
def headerChildOf : XNode → Option XNode
  | .elem _ _ children =>
    children.find?
      (fun x =>
        match x with
        | .elem m _ _ => m == headerName
        | .text _ => false)
  | .text _ => none

/-- Text content of an element node (empty for character data nodes). -/
def elemText : XNode → String
  | .elem _ _ cs => textContent cs
  | .text _ => ""

/-- Declarative view: the text of the last child element carrying the given
local name (the occurrence that wins when duplicates are present). -/
def lastTextOfLocal (loc : String) : List XNode → Option String
  | [] => none
  | x :: rest =>
    match lastTextOfLocal loc rest with
    | some t => some t
    | none => if isElemLocal loc x then some (elemText x) else none

/-! ## Helper lemmas -/

/-- The tree-level fault decode reads `Code` from the text of the winning
`faultcode` child, whatever the accumulator holds. -/
theorem faultFromNodes_code_eq :
    ∀ (ns : List XNode) (f : Fault),
      (faultFromNodes ns f).Code = (lastTextOfLocal "faultcode" ns).getD f.Code := by
  intro ns
  induction ns with
  | nil => intro f; rfl
  | cons x rest ih =>
    intro f
    cases x with
    | text s =>
      cases h : lastTextOfLocal "faultcode" rest <;>
        simp [faultFromNodes, lastTextOfLocal, isElemLocal, h, ih]
    | elem n a cs =>
      by_cases h1 : n.Local = "faultcode"
      · cases h : lastTextOfLocal "faultcode" rest <;>
          simp [faultFromNodes, lastTextOfLocal, isElemLocal, elemText, h, h1, ih]
      · by_cases h2 : n.Local = "faultstring" <;>
          by_cases h3 : n.Local = "faultactor" <;>
            by_cases h4 : n.Local = "detail" <;>
              cases h : lastTextOfLocal "faultcode" rest <;>
                simp [faultFromNodes, lastTextOfLocal, isElemLocal, h, h1, h2, h3, h4, ih]

/-- The tree-level fault decode reads `Fstring` from the text of the winning
`faultstring` child, whatever the accumulator holds. -/
theorem faultFromNodes_fstring_eq :
    ∀ (ns : List XNode) (f : Fault),
      (faultFromNodes ns f).Fstring = (lastTextOfLocal "faultstring" ns).getD f.Fstring := by
  intro ns
  induction ns with
  | nil => intro f; rfl
  | cons x rest ih =>
    intro f
    cases x with
    | text s =>
      cases h : lastTextOfLocal "faultstring" rest <;>
        simp [faultFromNodes, lastTextOfLocal, isElemLocal, h, ih]
    | elem n a cs =>
      by_cases h2 : n.Local = "faultstring"
      · cases h : lastTextOfLocal "faultstring" rest <;>
          simp [faultFromNodes, lastTextOfLocal, isElemLocal, elemText, h, h2, ih]
      · by_cases h1 : n.Local = "faultcode" <;>
          by_cases h3 : n.Local = "faultactor" <;>
            by_cases h4 : n.Local = "detail" <;>
              cases h : lastTextOfLocal "faultstring" rest <;>
                simp [faultFromNodes, lastTextOfLocal, isElemLocal, h, h1, h2, h3, h4, ih]

/-- With no `detail` child among the fault's children, the tree-level fault
decode leaves the detail field untouched. -/
theorem faultFromNodes_detail_of_none :
    ∀ (ns : List XNode) (f : Fault),
      (∀ x ∈ ns, isElemLocal "detail" x = false) →
      (faultFromNodes ns f).DetailInternal = f.DetailInternal := by
  intro ns
  induction ns with
  | nil => intro f _; rfl
  | cons x rest ih =>
    intro f hall
    have hx := hall x (List.mem_cons_self x rest)
    have hr : ∀ y ∈ rest, isElemLocal "detail" y = false :=
      fun y hy => hall y (List.mem_cons_of_mem x hy)
    cases x with
    | text s => simpa [faultFromNodes] using ih f hr
    | elem n a cs =>
      have hnl : ¬ n.Local = "detail" := by simpa [isElemLocal] using hx
      simp only [faultFromNodes]
      split_ifs with h1 h2 h3
      · exact ih _ hr
      · exact ih _ hr
      · exact ih _ hr
      · exact ih _ hr

/-- Whatever the verbatim capture returns is a literal contiguous prefix of
the raw input it started from: the fragment is taken from the byte stream as
is, never re-encoded. -/
theorem captureRawAux_isPrefix :
    ∀ (fuel : Nat) (orig : List Char) (st : Scanner) (d : Nat) (raw : String)
      (st' : Scanner),
      captureRawAux orig fuel st d = .ok (raw, st') → raw.data <+: orig := by
  intro fuel
  induction fuel with
  | zero =>
    intro orig st d raw st' h
    simp [captureRawAux] at h
  | succ fuel ih =>
    intro orig st d raw st' h
    simp only [captureRawAux] at h
    split at h
    · exact absurd h (by simp)
    · exact absurd h (by simp)
    · exact ih orig _ _ raw st' h
    · split at h
      · simp only [Except.ok.injEq, Prod.mk.injEq] at h
        obtain ⟨h1, h2⟩ := h
        subst h1
        exact List.take_prefix _ _
      · exact ih orig _ _ raw st' h
    · exact ih orig _ _ raw st' h

/-! ## Claims -/

/-- C1: on an HTTP 500 response whose body does not decode as a SOAP
envelope, `Do` reads the body in full before decoding and returns the
`HTTPError` carrying status 500 and the complete original raw body bytes —
for any decoder and any decode failure whatsoever — never a decode/syntax
error; in particular the plain-text body "internal error" yields the
`HTTPError` with exactly those bytes under the real envelope decoder. -/
theorem C1_do_500_decode_failure_returns_http_error :
    (∀ (decode : String → Except DecErr DecodedEnv) (body : String) (e : DecErr),
      decode body = .error e →
      clientDo 500 (.ok body) decode = .httpError ⟨500, body⟩)
    ∧ (∀ (he : HTTPError) (e2 : DecErr), DoOutcome.httpError he ≠ .decodeError e2)
    ∧ clientDo 500 (.ok "internal error") (envelopeDecode (some contentExampleName)) =
        .httpError ⟨500, "internal error"⟩ := by
  refine ⟨?_, ?_, rfl⟩
  · intro decode body e h
    simp [clientDo, h]
  · intro he e2 h
    exact DoOutcome.noConfusion h

/-- C1 witness: the theorem applied to the real envelope decoder on the
plain-text 500 body "internal error". -/
theorem C1_do_500_decode_failure_returns_http_error_witness :
    clientDo 500 (.ok "internal error") (envelopeDecode (some contentExampleName)) =
      .httpError ⟨500, "internal error"⟩ :=
  C1_do_500_decode_failure_returns_http_error.1
    (envelopeDecode (some contentExampleName)) "internal error"
    (.syn ⟨"unexpected EOF", 1⟩) rfl

/-- C9: whenever the envelope decode succeeds — at any HTTP status,
including 500 — `Do` never takes the cached raw-body `HTTPError` path: it
returns the fault-to-error conversion, which is the domain fault error when
the Body resolved to a Fault (carrying the fault with its raw detail for the
FaultError contract) and no error when the Body resolved to Content. -/
theorem C9_decode_success_preempts_http_error :
    ∀ (status : Nat) (body : String)
      (decode : String → Except DecErr DecodedEnv) (env : DecodedEnv),
      decode body = .ok env →
      clientDo status (.ok body) decode = ErrorFromFault env
      ∧ (∀ f, env.Fault = some f → ErrorFromFault env = .faultError f)
      ∧ (env.Fault = none → ErrorFromFault env = .ok)
      ∧ (∀ he : HTTPError, ErrorFromFault env ≠ .httpError he) := by
  intro status body decode env h
  refine ⟨?_, ?_, ?_, ?_⟩
  · by_cases hs : status = 500 <;> simp [clientDo, hs, h]
  · intro f hf
    simp [ErrorFromFault, hf]
  · intro hf
    simp [ErrorFromFault, hf]
  · intro he
    cases hf : env.Fault <;> simp [ErrorFromFault, hf]

/-- C9 witness: a 500 response carrying a valid SOAP Fault body decodes
successfully, and `Do` returns the fault conversion rather than the cached
raw-body error. -/
theorem C9_decode_success_preempts_http_error_witness :
    clientDo 500 (.ok decodeFaultDetailInput) (envelopeDecode (some contentExampleName)) =
      ErrorFromFault ⟨none, some decodedFaultDetail⟩ :=
  (C9_decode_success_preempts_http_error 500 decodeFaultDetailInput
    (envelopeDecode (some contentExampleName)) ⟨none, some decodedFaultDetail⟩ rfl).1

/-- C10: on an HTTP 500 response whose body read itself fails, `Do` returns
the read error verbatim — not an `HTTPError` with status and partial bytes —
and the outcome is independent of the decoder, i.e. no decode is
attempted. -/
theorem C10_do_500_read_failure_returns_read_error :
    ∀ (e : String) (decode : String → Except DecErr DecodedEnv),
      clientDo 500 (.error e) decode = .readError e
      ∧ (∀ he : HTTPError, DoOutcome.readError e ≠ .httpError he)
      ∧ (∀ decode2 : String → Except DecErr DecodedEnv,
          clientDo 500 (.error e) decode = clientDo 500 (.error e) decode2) := by
  intro e decode
  refine ⟨by simp [clientDo], ?_, ?_⟩
  · intro he h
    exact DoOutcome.noConfusion h
  · intro decode2
    simp [clientDo]

/-- C10 witness: the theorem applied to a concrete read failure under the
real envelope decoder. -/
theorem C10_do_500_read_failure_returns_read_error_witness :
    clientDo 500 (.error "connection reset") (envelopeDecode (some contentExampleName)) =
      .readError "connection reset" :=
  (C10_do_500_read_failure_returns_read_error "connection reset"
    (envelopeDecode (some contentExampleName))).1

/-- C2 counterexample: a decode invocation with a nil content binding on a
document whose Body's first child is a Fault does not fail with
`ErrEnvelopeMisconfigured` — it decodes the fault successfully, so the claim
as stated (every nil-binding decode fails with the configuration error) is
false. -/
theorem C2_nil_binding_fault_document_decodes :
    envelopeDecode none decodeFaultNoDetailInput = .ok ⟨none, some decodedFaultNoDetail⟩ :=
  rfl

/-- C2 (amended): a decode invocation with a nil content binding fails with
`ErrEnvelopeMisconfigured` — an error distinct from every syntax error —
whenever the document shell reaches a Body first child that is not the
reserved Fault name, regardless of whether the rest of the document body is
well-formed. -/
theorem C2_nil_binding_misconfigured_when_not_fault :
    ∀ (s : String) (cn : XName),
      scannedBodyChildName s = some cn →
      cn ≠ faultName →
      envelopeDecode none s = .error .envelopeMisconfigured
      ∧ (∀ e : SynErr, (DecErr.envelopeMisconfigured : DecErr) ≠ .syn e) := by
  intro s cn h1 h2
  refine ⟨?_, fun e h => DecErr.noConfusion h⟩
  simp only [scannedBodyChildName] at h1
  unfold envelopeDecode
  cases hsc : scanToBodyChild s with
  | error e => rw [hsc] at h1; simp at h1
  | ok v =>
    cases v with
    | none => rw [hsc] at h1; simp at h1
    | some q =>
      obtain ⟨cn2, cattrs, csc, st⟩ := q
      rw [hsc] at h1
      simp only [] at h1
      have hcn : cn2 = cn := by simpa using h1
      subst hcn
      simp [h2]

/-- C2 witness: the repository's own misconfiguration vector — nil binding,
non-fault first child, and a document whose remaining body is not even
well-formed (a stray comma inside a start tag on line 5) — yields exactly
`ErrEnvelopeMisconfigured`. -/
theorem C2_nil_binding_misconfigured_when_not_fault_witness :
    envelopeDecode none decodeBadAttrInput = .error .envelopeMisconfigured :=
  (C2_nil_binding_misconfigured_when_not_fault decodeBadAttrInput contentExampleName
    rfl (by decide)).1

/-- C6: malformed documents fail with the engine's syntax error carrying its
message and the correct offending line, surfaced unmodified: the repository's
three malformed vectors (mismatched closing tag at line 6, bad attribute
separator at line 5, unterminated end tag reported at line 6) produce exactly
those errors, and any syntax error raised while scanning the document shell
is returned by the envelope decode without wrapping; no partially populated
envelope is produced (an error excludes a decoded value). -/
theorem C6_malformed_input_syntax_errors :
    envelopeDecode (some contentExampleName) decodeMismatchedTagInput =
      .error (.syn ⟨"element <ContentExample> closed by </Body>", 6⟩)
    ∧ envelopeDecode (some contentExampleName) decodeBadAttrInput =
      .error (.syn ⟨"expected attribute name in element", 5⟩)
    ∧ envelopeDecode (some contentExampleName) decodeBadEndTagInput =
      .error (.syn ⟨"invalid characters between </faultcode and >", 6⟩)
    ∧ (∀ (b : Option XName) (s : String) (e : SynErr),
        scanToBodyChild s = .error (.syn e) →
        envelopeDecode b s = .error (.syn e)) := by
  refine ⟨rfl, rfl, rfl, ?_⟩
  intro b s e h
  unfold envelopeDecode
  rw [h]

/-- C6 witness: a document whose shell is malformed (envelope closed by a
wrong end tag) surfaces the engine's mismatch error unmodified. -/
theorem C6_malformed_input_syntax_errors_witness :
    envelopeDecode (some contentExampleName) badShellInput =
      .error (.syn ⟨"element <Envelope> closed by </Wrong>", 1⟩) :=
  C6_malformed_input_syntax_errors.2.2.2 (some contentExampleName) badShellInput
    ⟨"element <Envelope> closed by </Wrong>", 1⟩ rfl

/-- C3: for every document tree whose Body's first element child carries the
reserved Fault name, decode yields no Content and the fault built from the
fault's children — for every binding, so the discrimination is made purely by
the first child's qualified name and a content decode is never attempted;
`Code` and `Fstring` come from the text of the `faultcode` and `faultstring`
children; the repository's fault vector decodes accordingly end to end. -/
theorem C3_fault_discriminated_by_first_child_name :
    (∀ (b : Option XName) (eattrs battrs fattrs : List XAttr)
      (children bodyCs fcs : List XNode) (bn : XName),
      children.find? isBodyElem = some (.elem bn battrs bodyCs) →
      firstElemChild bodyCs = some (.elem faultName fattrs fcs) →
      decodeEnvTree b (.elem envelopeName eattrs children) =
        .ok ⟨none, some (faultFromNodes fcs Fault.empty)⟩)
    ∧ (∀ fcs : List XNode,
        (faultFromNodes fcs Fault.empty).Code = (lastTextOfLocal "faultcode" fcs).getD ""
        ∧ (faultFromNodes fcs Fault.empty).Fstring =
            (lastTextOfLocal "faultstring" fcs).getD "")
    ∧ envelopeDecode (some contentExampleName) decodeFaultDetailInput =
        .ok ⟨none, some decodedFaultDetail⟩ := by
  refine ⟨?_, ?_, rfl⟩
  · intro b eattrs battrs fattrs children bodyCs fcs bn hbody hfirst
    simp [decodeEnvTree, hbody, hfirst]
  · intro fcs
    exact ⟨faultFromNodes_code_eq fcs Fault.empty, faultFromNodes_fstring_eq fcs Fault.empty⟩

/-- C3 witness: a concrete fault document tree, decoded with a nil binding,
resolves to the fault and no content. -/
theorem C3_fault_discriminated_by_first_child_name_witness :
    decodeEnvTree none
      (.elem envelopeName []
        [.elem bodyName [] [.elem faultName [] [.elem ⟨"", "faultcode"⟩ [] [.text "X"]]]]) =
      .ok ⟨none, some (faultFromNodes [.elem ⟨"", "faultcode"⟩ [] [.text "X"]] Fault.empty)⟩ :=
  C3_fault_discriminated_by_first_child_name.1 none [] [] []
    [.elem bodyName [] [.elem faultName [] [.elem ⟨"", "faultcode"⟩ [] [.text "X"]]]]
    [.elem faultName [] [.elem ⟨"", "faultcode"⟩ [] [.text "X"]]]
    [.elem ⟨"", "faultcode"⟩ [] [.text "X"]] bodyName rfl rfl

/-- C4: the `detail` element is not decoded structurally: the repository's
fault vector decodes with the fault's internal detail field holding exactly
the original inner markup, surrounding whitespace included; and in general
whatever the verbatim capture stores is a literal contiguous prefix of the
raw input it was started on — taken as-is from the byte stream. -/
theorem C4_detail_captured_verbatim :
    envelopeDecode (some contentExampleName) decodeFaultDetailInput =
      .ok ⟨none, some decodedFaultDetail⟩
    ∧ decodedFaultDetail.DetailInternal = some decodeFaultDetailFragment
    ∧ (∀ (fuel : Nat) (orig : List Char) (st : Scanner) (d : Nat) (raw : String)
        (st' : Scanner),
        captureRawAux orig fuel st d = .ok (raw, st') → raw.data <+: orig) :=
  ⟨rfl, rfl, captureRawAux_isPrefix⟩

/-- C4 witness: a concrete capture run returning "abc" out of "abc</d>", a
literal prefix of the raw input. -/
theorem C4_detail_captured_verbatim_witness :
    ("abc" : String).data <+: ("abc</d>" : String).data :=
  C4_detail_captured_verbatim.2.2 8 ("abc</d>".data)
    ⟨"abc</d>".data, 1, [⟨⟨"", "d"⟩, ⟨"", "d"⟩, []⟩]⟩ 0 "abc" ⟨[], 1, []⟩ rfl

/-- C5: a fault without a `detail` child decodes with an absent (nil) detail,
not an empty-but-present one: the repository's no-detail vector yields
`DetailInternal = none`, and at tree level any fault whose children include
no `detail` element leaves the detail absent. -/
theorem C5_missing_detail_stays_absent :
    envelopeDecode (some contentExampleName) decodeFaultNoDetailInput =
      .ok ⟨none, some decodedFaultNoDetail⟩
    ∧ decodedFaultNoDetail.DetailInternal = none
    ∧ (∀ ns : List XNode,
        (∀ x ∈ ns, isElemLocal "detail" x = false) →
        (faultFromNodes ns Fault.empty).DetailInternal = none) := by
  refine ⟨rfl, rfl, ?_⟩
  intro ns h
  exact faultFromNodes_detail_of_none ns Fault.empty h

/-- C5 witness: a fault with only a `faultcode` child keeps the detail
absent. -/
theorem C5_missing_detail_stays_absent_witness :
    (faultFromNodes [.elem ⟨"", "faultcode"⟩ [] [.text "c"]] Fault.empty).DetailInternal =
      none :=
  C5_missing_detail_stays_absent.2.2 [.elem ⟨"", "faultcode"⟩ [] [.text "c"]] (by decide)

/-- C7: the repository's encode scenario — content `{Attr1:10, Field1:{Attr1:
"test attr", Attr2:11, Value:"This is a test string"}}` with zero header
builders — produces exactly the expected document: one content element with
those attributes and character data inside the fixed envelope/body pair bound
to the SOAP envelope namespace and no Header element; in general an encode
with no headers contributes no Header child at all. -/
theorem C7_encode_scenario_no_header :
    envelopeEncode contentExampleName encodeContentExample [] = encodeExpected
    ∧ (∀ (canon : XName) (c : XNode), headerChildOf (encodeEnvTree canon c []) = none) :=
  ⟨rfl, fun _ _ => rfl⟩

/-- C7 witness: the header-absence invariant at the scenario's own content
value. -/
theorem C7_encode_scenario_no_header_witness :
    headerChildOf (encodeEnvTree contentExampleName encodeContentExample []) = none :=
  C7_encode_scenario_no_header.2 contentExampleName encodeContentExample

/-- C8 counterexample: a content value carrying a caller-set tag name that
disagrees with the canonical binding does not round trip at all — decode
fails with the engine's element-type mismatch — so the claim as stated (every
content value round trips up to unset tag names) is false, at tree level and
through the full string pipeline alike. -/
theorem C8_roundtrip_fails_on_divergent_name :
    decodeEnvTree (some contentExampleName)
      (encodeEnvTree contentExampleName (.elem ⟨"x", "Bogus"⟩ [] []) []) =
      .error (.unmarshal "expected element type <ContentExample> but have <Bogus>")
    ∧ envelopeDecode (some contentExampleName)
        (envelopeEncode contentExampleName (.elem ⟨"x", "Bogus"⟩ [] []) []) =
      .error (.unmarshal "expected element type <ContentExample> but have <Bogus>") :=
  ⟨rfl, rfl⟩

/-- C8 (amended): for every content value whose caller-set tag name is
consistent with the canonical binding (in particular whenever the name was
left unset), encode then decode yields the value back with the canonical
name assigned where it was unset — the encode producing a fresh node, the
original unmutated; the repository's encode vector round trips through the
full string pipeline accordingly. -/
theorem C8_roundtrip_canonicalizes :
    (∀ (canon n : XName) (attrs : List XAttr) (cs : List XNode),
      canonName canon n = canon →
      canon ≠ faultName →
      decodeEnvTree (some canon) (encodeEnvTree canon (.elem n attrs cs) []) =
        .ok ⟨some (.elem canon attrs (resolveTrees canon.Space cs)), none⟩)
    ∧ envelopeDecode (some contentExampleName)
        (envelopeEncode contentExampleName encodeContentExample []) =
      .ok ⟨some (resolveTree "" (encodeContentNode contentExampleName encodeContentExample)),
        none⟩ := by
  refine ⟨?_, rfl⟩
  intro canon n attrs cs hname hfault
  have hsp : (if canon.Space = "" then "" else canon.Space) = canon.Space := by
    by_cases h : canon.Space = "" <;> simp [h]
  simp only [encodeEnvTree, encodeContentNode, hname, List.isEmpty_nil, if_true,
    List.nil_append, resolveTree, hsp]
  have heta : (⟨canon.Space, canon.Local⟩ : XName) = canon := rfl
  rw [heta]
  simp [decodeEnvTree, isBodyElem, firstElemChild, XNode.isElem, List.find?, hfault]

/-- C8 witness: the canonicalizing round trip at a content value whose tag
name was left fully unset. -/
theorem C8_roundtrip_canonicalizes_witness :
    decodeEnvTree (some contentExampleName)
      (encodeEnvTree contentExampleName (.elem ⟨"", ""⟩ [] []) []) =
      .ok ⟨some (.elem contentExampleName [] (resolveTrees contentExampleName.Space [])),
        none⟩ :=
  C8_roundtrip_canonicalizes.1 contentExampleName ⟨"", ""⟩ [] [] (by decide) (by decide)

end Gosoap
